import Mathlib

/-!
Shallow embedding of the hybrid retrieval query router of the PartSelect
chatbot repository, together with theorems settling the frozen claims about
it.

Sources embedded here:
* the entity extractors (extractPartNumbers, extractModelNumbers,
  extractBrands) of src/src/services/vectorStore.js (the utils/extractors
  variant, lines 160-257),
* the intent pattern table QUERY_PATTERNS of src/src/constants/query.js,
* matchesPattern / analyzeQuery / regexLookup / routeQuery /
  formatContextForLLM of the query router (src/unnamed/part_014),
* the searchProducts wrapper of src/src/services/vectorStore.js (lines
  57-64) and the catalog collaborators searchByReplacementPart,
  searchByCompatibleModel, getProductByPartNumber of the Chroma store
  (src/unnamed/part_011).

JavaScript strings are modelled as Lean strings (all data in scope is
ASCII), JS numbers used by the code only through comparison of differences
are modelled as Int, fallible async collaborators as functions into
Except, and arrays as lists.  The JS regular expressions used by the
extractors are embedded as explicit leftmost/greedy backtracking matchers
over List Char, one matcher per regex literal.
-/

namespace PartSelect

/-! ### Character classes (JS regex semantics, ASCII)

Character classes of the regexes that appear in the extractors.  Under the
i flag, [A-Z] matches ASCII letters of both cases; \d is [0-9]; \w (used
by the word-boundary assertion \b) is [A-Za-z0-9_]; \s is modelled by its
ASCII part, which is all that can occur in the queries embedded here. -/

def isLetterClass (c : Char) : Bool := c.isAlpha

def isDigitClass (c : Char) : Bool := c.isDigit

def isWordClass (c : Char) : Bool := c.isAlphanum || c == '_'

def isDigitDashClass (c : Char) : Bool := c.isDigit || c == '-'

def isAlnumDashClass (c : Char) : Bool := c.isAlphanum || c == '-'

def isSpaceClass (c : Char) : Bool :=
  c == ' ' || c == '\t' || c == '\n' || c == '\r' || c == '\x0b' || c == '\x0c'

/-- JS String.prototype.toLowerCase on the ASCII strings in scope,
character by character (structural, so that closed terms reduce). -/
def jsToLower (s : String) : String := String.mk (s.data.map Char.toLower)

/-- JS String.prototype.toUpperCase, likewise. -/
def jsToUpper (s : String) : String := String.mk (s.data.map Char.toUpper)

/-- JS String.prototype.startsWith. -/
def strStartsWith (s pre : String) : Bool := pre.data.isPrefixOf s.data

/-! ### Positions, slices and the word-boundary assertion -/

/-- The n characters of cs starting at position i (shorter at the end). -/
def slice (cs : List Char) (i n : Nat) : List Char := (cs.drop i).take n

/-- Length of the maximal run of characters satisfying p starting at i. -/
def runLen (p : Char → Bool) (cs : List Char) (i : Nat) : Nat :=
  ((cs.drop i).takeWhile p).length

/-- Whether the character at position i exists and is a word character. -/
def isWordAt (cs : List Char) (i : Nat) : Bool :=
  match cs[i]? with
  | some c => isWordClass c
  | none => false

/-- The \b assertion at position i: a word character on exactly one side. -/
def wordBoundary (cs : List Char) (i : Nat) : Bool :=
  if i = 0 then isWordAt cs 0 else isWordAt cs (i - 1) != isWordAt cs i

/-! ### Ordered-choice combinators for the backtracking matchers -/

/-- First alternative (in list order) on which f succeeds: the ordered
choice of a backtracking regex engine. -/
def firstSome {α β : Type} : List α → (α → Option β) → Option β
  | [], _ => none
  | a :: l, f =>
    match f a with
    | some b => some b
    | none => firstSome l f

/-- The list [hi, hi-1, ..., lo] (empty when lo > hi): the preference
order of a greedy bounded repetition. -/
def descCounts (hi lo : Nat) : List Nat :=
  (List.range (hi + 1 - lo)).map (fun k => hi - k)

/-- Case-insensitive literal match (lit is given lower-cased) at position
i; returns the position after the literal. -/
def matchLitCI (cs : List Char) (lit : List Char) (i : Nat) : Option Nat :=
  match lit with
  | [] => some i
  | c :: rest =>
    match cs[i]? with
    | some d => if d.toLower == c then matchLitCI cs rest (i + 1) else none
    | none => none

/-! ### The four regex literals of the extractors

Each matcher tries one start position and returns the captures and the end
position; greedy quantifiers try larger repetition counts first, and
ordered alternatives are tried left to right, exactly as the JS
backtracking engine does. -/

/-- One attempt of /\b([A-Z]{2,3})(\d{5,10})\b/gi at position i: returns
((prefix letters, digits), end). -/
def re1MatchAt (cs : List Char) (i : Nat) : Option ((List Char × List Char) × Nat) :=
  if wordBoundary cs i then
    firstSome (descCounts 3 2) fun nL =>
      let pre := slice cs i nL
      if pre.length == nL && pre.all isLetterClass then
        firstSome (descCounts 10 5) fun nD =>
          let dg := slice cs (i + nL) nD
          if dg.length == nD && dg.all isDigitClass && wordBoundary cs (i + nL + nD) then
            some ((pre, dg), i + nL + nD)
          else none
      else none
  else none

/-- The \d{5,10} tail of the spaced pattern at position j: greedy, no
trailing assertion, so it takes min(run, 10) digits when at least 5 are
available. -/
def re2DigitsAt (cs : List Char) (j : Nat) : Option (List Char × Nat) :=
  let run := runLen isDigitClass cs j
  if run ≥ 5 then
    let n := min run 10
    some (slice cs j n, j + n)
  else none

/-- One attempt of /(?:PS|ps|part\s*)?(\d{5,10})/gi at position i: returns
(digit capture, end).  The optional group's alternatives PS, ps, part\s*
and then the empty choice are tried in order, each followed by the digit
tail. -/
def re2MatchAt (cs : List Char) (i : Nat) : Option (List Char × Nat) :=
  firstSome
    [matchLitCI cs ['p', 's'] i,
     matchLitCI cs ['p', 's'] i,
     (matchLitCI cs ['p', 'a', 'r', 't'] i).map (fun j => j + runLen isSpaceClass cs j),
     some i]
    fun jOpt =>
      match jOpt with
      | some j => re2DigitsAt cs j
      | none => none

/-- One attempt of /\b([A-Z]{2,4}[\d-]+[A-Z0-9-]*)\b/gi at position i:
returns (full match, end). -/
def re3MatchAt (cs : List Char) (i : Nat) : Option (List Char × Nat) :=
  if wordBoundary cs i then
    firstSome (descCounts 4 2) fun nL =>
      let pre := slice cs i nL
      if pre.length == nL && pre.all isLetterClass then
        let j := i + nL
        let d := runLen isDigitDashClass cs j
        firstSome (descCounts d 1) fun nD =>
          let k := j + nD
          let a := runLen isAlnumDashClass cs k
          firstSome (descCounts a 0) fun nA =>
            if wordBoundary cs (k + nA) then
              some (slice cs i (nL + nD + nA), k + nA)
            else none
      else none
  else none

/-- One attempt of /\b(\d{8,12})\b/g at position i: returns (digits, end). -/
def re4MatchAt (cs : List Char) (i : Nat) : Option (List Char × Nat) :=
  if wordBoundary cs i then
    let run := runLen isDigitClass cs i
    firstSome (descCounts (min run 12) 8) fun nD =>
      if wordBoundary cs (i + nD) then some (slice cs i nD, i + nD) else none
  else none

/-! ### Global scanning (String.prototype.match / matchAll with the g flag)

The engine finds the leftmost match at or after the current position and
continues scanning at its end.  All four regexes above only produce
non-empty matches, so the end position strictly advances. -/

def scanAllAux {β : Type} (f : Nat → Option (β × Nat)) (len : Nat) : Nat → Nat → List β
  | _, 0 => []
  | i, fuel + 1 =>
    if i > len then []
    else
      match f i with
      | some (b, e) => b :: scanAllAux f len (max e (i + 1)) fuel
      | none => scanAllAux f len (i + 1) fuel

def scanAll {β : Type} (f : Nat → Option (β × Nat)) (len : Nat) : List β :=
  scanAllAux f len 0 (len + 1)

/-! ### String helpers shared by the embedded functions -/

/-- JS String.prototype.includes: needle occurs as a contiguous substring. -/
def listIncludes (hay needle : List Char) : Bool :=
  (List.range (hay.length + 1)).any fun i => needle.isPrefixOf (hay.drop i)

def strIncludes (hay needle : String) : Bool := listIncludes hay.data needle.data

/-- First-occurrence deduplication of strings: the spread of a JS Set. -/
def dedupFirstAux (seen : List String) : List String → List String
  | [] => []
  | x :: rest =>
    if seen.contains x then dedupFirstAux seen rest
    else x :: dedupFirstAux (x :: seen) rest

def dedupFirstStr (l : List String) : List String := dedupFirstAux [] l

/-! ### Entity extractors (src/src/services/vectorStore.js lines 160-257) -/

/-- The validPrefixes table of extractPartNumbers. -/
def VALID_PREFIXES : List String := ["PS", "AP", "WP", "W", "EDR", "DA"]

/-- The loop body of extractPartNumbers over matches of the prefixed
pattern: push upper-cased prefix + digits when the prefix is known or the
digits are at least 5 long. -/
def pushPrefixedMatch (acc : List String) (pd : List Char × List Char) : List String :=
  let pfx := String.mk (pd.1.map Char.toUpper)
  let digits := String.mk pd.2
  if VALID_PREFIXES.contains pfx || digits.length ≥ 5 then
    acc ++ [pfx ++ digits]
  else acc

/-- The loop body of extractPartNumbers over matches of the spaced
pattern: push "PS" + digits when that string is not already present and
the digit count is between 5 and 10. -/
def pushSpacedMatch (acc : List String) (dg : List Char) : List String :=
  let digits := String.mk dg
  let fullNumber := "PS" ++ digits
  if !acc.contains fullNumber && digits.length ≥ 5 && digits.length ≤ 10 then
    acc ++ [fullNumber]
  else acc

/-- extractPartNumbers (lines 160-195): the matches of
/\b([A-Z]{2,3})(\d{5,10})\b/gi, then the matches of
/(?:PS|ps|part\s*)?(\d{5,10})/gi, accumulated by the two loop bodies
above; finally the JS Set spread removes duplicates keeping first
occurrences. -/
def extractPartNumbers (query : String) : List String :=
  let cs := query.data
  let partNumbers₁ := (scanAll (re1MatchAt cs) cs.length).foldl pushPrefixedMatch []
  let partNumbers₂ := (scanAll (re2MatchAt cs) cs.length).foldl pushSpacedMatch partNumbers₁
  dedupFirstStr partNumbers₂

/-- extractModelNumbers (lines 202-233): matches of the alphanumeric model
pattern and of the bare 8-12 digit pattern, filtered to exclude anything
that is a recognized part number, starts with PS, or is in substring
relation (either direction) with a recognized part number. -/
def extractModelNumbers (query : String) : List String :=
  let partNumbers := extractPartNumbers query
  let partNumberSet := partNumbers.map jsToUpper
  let cs := query.data
  let alphaMatches := (scanAll (re3MatchAt cs) cs.length).map String.mk
  let numericMatches := (scanAll (re4MatchAt cs) cs.length).map String.mk
  let modelNumbers := alphaMatches ++ numericMatches
  modelNumbers.filter fun m =>
    let upper := jsToUpper m
    !partNumberSet.contains upper &&
    !strStartsWith upper "PS" &&
    !partNumbers.any (fun pn => strIncludes upper (jsToUpper pn) || strIncludes (jsToUpper pn) upper)

/-- The brand vocabulary of extractBrands (lines 238-257), in source order. -/
def BRANDS : List String :=
  ["whirlpool", "frigidaire", "ge", "general electric", "samsung", "lg",
   "kitchenaid", "maytag", "bosch", "admiral", "tappan", "amana", "smeg",
   "midea", "kenmore", "electrolux", "hotpoint", "haier", "gibson",
   "crosley", "roper", "estate", "inglis", "kelvinator", "norge",
   "caloric", "dacor", "gaggenau", "thermador", "uni", "sharp", "rca",
   "blomberg", "beko"]

/-- extractBrands: brands of the vocabulary, in vocabulary order, that
occur in the lower-cased query. -/
def extractBrands (query : String) : List String :=
  let lowerQuery := jsToLower query
  BRANDS.filter fun brand => strIncludes lowerQuery brand

/-! ### The intent pattern table (src/src/constants/query.js) -/

structure QueryPattern where
  type : String
  requires : List String
  keywords : List String
  useRegex : Bool
  useRAG : Bool
  confidence : String
deriving DecidableEq

/-- QUERY_PATTERNS, all ten rows in source order. -/
def QUERY_PATTERNS : List QueryPattern :=
  [⟨"compatibility", ["partNumber"], ["compatible", "fit", "work with"], true, true, "high"⟩,
   ⟨"installation", ["partNumber"], ["install", "how to", "steps"], true, true, "high"⟩,
   ⟨"part_lookup", ["partNumber"], [], true, true, "high"⟩,
   ⟨"product_search", [],
     ["find", "search", "show", "list", "need", "looking for", "buy", "order",
      "parts for", "part for"], false, true, "medium"⟩,
   ⟨"brand_query", [],
     ["brand", "whirlpool", "ge", "samsung", "lg", "maytag", "kitchenaid",
      "frigidaire", "kenmore", "bosch"], false, true, "medium"⟩,
   ⟨"troubleshooting", [],
     ["not working", "broken", "fix", "troubleshoot", "problem", "leaking",
      "noise", "issue"], false, true, "medium"⟩,
   ⟨"installation", [], ["install", "how to", "replace"], false, true, "medium"⟩,
   ⟨"model_query", ["modelNumber"], [], true, true, "high"⟩,
   ⟨"help", [],
     ["help", "how do i", "how can i", "where", "what is", "explain",
      "tell me about", "figure out"], false, false, "low"⟩,
   ⟨"general", [], [], false, false, "low"⟩]

/-- The last row of the table, used by analyzeQuery's fallback. -/
def fallbackPattern : QueryPattern := QUERY_PATTERNS.getLast (by decide)

/-! ### Intent classification (part_014 lines 18-104) -/

/-- matchesPattern: reject when a required entity kind was not extracted;
then, when the pattern has keywords, accept only if some keyword occurs in
the lower-cased query (console logging of the source omitted). -/
def matchesPattern (lowerQuery : String) (p : QueryPattern)
    (hasPartNumber hasModelNumber : Bool) : Bool :=
  if p.requires.contains "partNumber" && !hasPartNumber then false
  else if p.requires.contains "modelNumber" && !hasModelNumber then false
  else if p.keywords.length > 0 then
    (p.keywords.find? fun keyword => strIncludes lowerQuery keyword).isSome
  else true

structure QueryAnalysis where
  hasPartNumber : Bool
  hasModelNumber : Bool
  hasBrand : Bool
  partNumbers : List String
  modelNumbers : List String
  brands : List String
  queryType : String
  useRegex : Bool
  useRAG : Bool
  confidence : String
deriving DecidableEq

/-- The first-match-wins loop of analyzeQuery (for..of with break on the
first pattern that matches). -/
def findMatchedPattern (lowerQuery : String) (hasPartNumber hasModelNumber : Bool) :
    List QueryPattern → Option QueryPattern
  | [] => none
  | p :: rest =>
    if matchesPattern lowerQuery p hasPartNumber hasModelNumber then some p
    else findMatchedPattern lowerQuery hasPartNumber hasModelNumber rest

/-- analyzeQuery (part_014 lines 47-104): extract entities, scan the
pattern table for the first match, fall back to the last row when none
matched, and flatten the selected pattern into the analysis. -/
def analyzeQuery (query : String) : QueryAnalysis :=
  let lowerQuery := jsToLower query
  let partNumbers := extractPartNumbers query
  let modelNumbers := extractModelNumbers query
  let brands := extractBrands query
  let hasPartNumber := partNumbers.length > 0
  let hasModelNumber := modelNumbers.length > 0
  let hasBrand := brands.length > 0
  let matchedPattern :=
    match findMatchedPattern lowerQuery hasPartNumber hasModelNumber QUERY_PATTERNS with
    | some p => p
    | none => fallbackPattern
  ⟨hasPartNumber, hasModelNumber, hasBrand, partNumbers, modelNumbers, brands,
   matchedPattern.type, matchedPattern.useRegex, matchedPattern.useRAG,
   matchedPattern.confidence⟩

/-! ### Product records and the collaborator interface -/

/-- A product record as the router consumes it.  String fields that may be
absent in JS are modelled as possibly empty strings (JS treats both as
falsy at every use in scope); the relevance score is absent on structured
results and numeric on semantic ones, and the code only ever compares
scores by the sign of a difference, so Int models it. -/
structure Product where
  id : String
  partNumber : String
  name : String
  description : String
  category : String
  brand : String
  compatibleModels : List String
  replacementParts : List String
  price : String
  inStock : Bool
  url : String
  installation : String
  troubleshooting : String
  relevance : Option Int
deriving DecidableEq

/-- The four collaborator functions the router imports; each is async and
may reject, modelled by Except. -/
structure RouterEnv (ε : Type) where
  getProductByPartNumber : String → Except ε (Option Product)
  searchByReplacementPart : String → Option String → Except ε (List Product)
  searchByCompatibleModel : String → Option String → Except ε (List Product)
  searchProducts : String → Nat → Except ε (List Product)

/-- searchProducts of src/src/services/vectorStore.js lines 57-64: the
try/catch around the underlying vector store turns any rejection into an
empty result list. -/
def vsSearchProducts {ε : Type} (raw : String → Nat → Except ε (List Product))
    (query : String) (limit : Nat) : Except ε (List Product) :=
  match raw query limit with
  | .error _ => .ok []
  | .ok l => .ok l

/-! ### The structured lookup strategy (part_014 lines 110-186) -/

/-- First-occurrence deduplication by record id: the findIndex-based
filter of regexLookup and the Set-based filters of routeQuery. -/
def dedupByIdAux (seen : List String) : List Product → List Product
  | [] => []
  | p :: rest =>
    if seen.contains p.id then dedupByIdAux seen rest
    else p :: dedupByIdAux (p.id :: seen) rest

def dedupById (l : List Product) : List Product := dedupByIdAux [] l

/-- The brand filter shared by regexLookup and the RAG branch:
a record with a falsy brand is dropped, otherwise kept when its
lower-cased brand contains some extracted brand. -/
def brandKeep (brands : List String) (p : Product) : Bool :=
  if p.brand == "" then false
  else brands.any fun brand => strIncludes (jsToLower p.brand) (jsToLower brand)

/-- The per-part-number loop of regexLookup: direct id lookup, then the
replacement-part search with brands[0] (or null) as the collaborator-level
brand filter; results accumulate in loop order. -/
def lookupPartLoop {ε : Type} (env : RouterEnv ε) (brands : List String) :
    List String → Except ε (List Product)
  | [] => .ok []
  | partNumber :: rest =>
    match env.getProductByPartNumber partNumber with
    | .error e => .error e
    | .ok exactMatch =>
      let brandFilter := brands.head?
      match env.searchByReplacementPart partNumber brandFilter with
      | .error e => .error e
      | .ok replacementMatches =>
        match lookupPartLoop env brands rest with
        | .error e => .error e
        | .ok restResults =>
          .ok ((match exactMatch with | some p => [p] | none => []) ++
               replacementMatches ++ restResults)

/-- The per-model-number compatibility loop, shared verbatim between
regexLookup and the RAG branch of routeQuery: brands[0] (or null) is the
collaborator-level brand filter. -/
def lookupModelLoop {ε : Type} (env : RouterEnv ε) (brands : List String) :
    List String → Except ε (List Product)
  | [] => .ok []
  | modelNumber :: rest =>
    let brandFilter := brands.head?
    match env.searchByCompatibleModel modelNumber brandFilter with
    | .error e => .error e
    | .ok compatibleProducts =>
      match lookupModelLoop env brands rest with
      | .error e => .error e
      | .ok restResults => .ok (compatibleProducts ++ restResults)

/-- The body of regexLookup's try block: both loops, then the brand
filter when brands were extracted, then deduplication by id. -/
def regexLookupBody {ε : Type} (env : RouterEnv ε)
    (partNumbers modelNumbers brands : List String) : Except ε (List Product) :=
  match (if partNumbers.length > 0 then lookupPartLoop env brands partNumbers else .ok []) with
  | .error e => .error e
  | .ok partResults =>
    match (if modelNumbers.length > 0 then lookupModelLoop env brands modelNumbers else .ok []) with
    | .error e => .error e
    | .ok modelResults =>
      let results := partResults ++ modelResults
      let filteredResults :=
        if brands.length > 0 then results.filter (brandKeep brands) else results
      .ok (dedupById filteredResults)

/-- regexLookup (part_014 lines 110-186): the catch clause turns any
collaborator rejection into an empty result list. -/
def regexLookup {ε : Type} (env : RouterEnv ε)
    (partNumbers modelNumbers brands : List String) : Except ε (List Product) :=
  match regexLookupBody env partNumbers modelNumbers brands with
  | .error _ => .ok []
  | .ok uniqueResults => .ok uniqueResults

/-! ### Result fusion (part_014 lines 288-323) -/

/-- JS (p.relevance || 0): an absent score reads as 0. -/
def relOrZero (p : Product) : Int := p.relevance.getD 0

/-- Membership of a result in the structured result set, by record id. -/
def isExactIn (regexResults : List Product) (p : Product) : Bool :=
  regexResults.any fun r => r.id == p.id

/-- Whether some extracted model number occurs (case-insensitively) in the
record's compatible-model list.  The JS truthiness guard on the
compatibleModels array is vacuous here because the field is always
present (an empty array is truthy in JS). -/
def productMatchesModel (modelNumbers : List String) (p : Product) : Bool :=
  modelNumbers.any fun mn => p.compatibleModels.any fun cm => jsToUpper cm == jsToUpper mn

/-- The sort comparator of routeQuery: structured results first, then
(under an extracted model number, among two semantic results)
model-compatible results first, remaining ties by descending relevance
with absent relevance read as 0. -/
def productCmp (regexResults : List Product) (analysis : QueryAnalysis)
    (a b : Product) : Int :=
  let aIsExact := isExactIn regexResults a
  let bIsExact := isExactIn regexResults b
  if aIsExact && !bIsExact then -1
  else if !aIsExact && bIsExact then 1
  else if !aIsExact && !bIsExact && analysis.hasModelNumber then
    let aMatchesModel := productMatchesModel analysis.modelNumbers a
    let bMatchesModel := productMatchesModel analysis.modelNumbers b
    if aMatchesModel && !bMatchesModel then -1
    else if !aMatchesModel && bMatchesModel then 1
    else relOrZero b - relOrZero a
  else relOrZero b - relOrZero a

/-- Insert x into a sorted list before the first element it compares at
or below: one step of a stable insertion sort. -/
def sortInsert (le : Product → Product → Bool) (x : Product) :
    List Product → List Product
  | [] => [x]
  | y :: ys => if le x y then x :: y :: ys else y :: sortInsert le x ys

/-- A stable sort.  JS Array.prototype.sort is specified stable, and all
stable sorts under one total preorder produce the same list, so this
structurally recursive insertion sort is the sort of the source. -/
def stableSort (le : Product → Product → Bool) : List Product → List Product
  | [] => []
  | x :: xs => sortInsert le x (stableSort le xs)

/-- The combine-and-sort step of routeQuery: concatenate structured before
semantic results, deduplicate by id keeping first occurrences, then
stable-sort with the comparator. -/
def fuseCombined (regexResults ragResults : List Product)
    (analysis : QueryAnalysis) : List Product :=
  stableSort (fun a b => decide (productCmp regexResults analysis a b ≤ 0))
    (dedupById (regexResults ++ ragResults))

/-! ### The router (part_014 lines 193-332) -/

structure RouterResults where
  regexResults : List Product
  ragResults : List Product
  combinedResults : List Product
  analysis : QueryAnalysis
deriving DecidableEq

/-- The RAG branch of routeQuery (lines 215-281): augment the query with
the extracted brands, run the model-compatibility loop when model numbers
were extracted, run the semantic search, filter by brand when brands were
extracted and anything was found, and deduplicate by id. -/
def ragBranch {ε : Type} (env : RouterEnv ε) (query : String)
    (analysis : QueryAnalysis) : Except ε (List Product) :=
  let ragQuery :=
    if analysis.brands.length > 0 then
      query ++ " " ++ String.intercalate " " analysis.brands
    else query
  match (if analysis.hasModelNumber && analysis.modelNumbers.length > 0 then
           lookupModelLoop env analysis.brands analysis.modelNumbers
         else .ok []) with
  | .error e => .error e
  | .ok modelResults =>
    match env.searchProducts ragQuery 10 with
    | .error e => .error e
    | .ok semanticResults =>
      let ragAll := modelResults ++ semanticResults
      let ragFiltered :=
        if analysis.brands.length > 0 && ragAll.length > 0 then
          ragAll.filter (brandKeep analysis.brands)
        else ragAll
      .ok (dedupById ragFiltered)

/-- routeQuery (lines 193-332): analyze, run the structured lookup when
the intent wants it and an identifier was extracted, run the RAG branch
when the intent wants it, then combine and sort. -/
def routeQuery {ε : Type} (env : RouterEnv ε) (query : String) :
    Except ε RouterResults :=
  let analysis := analyzeQuery query
  match (if analysis.useRegex && (analysis.hasPartNumber || analysis.hasModelNumber) then
           regexLookup env analysis.partNumbers analysis.modelNumbers analysis.brands
         else .ok []) with
  | .error e => .error e
  | .ok regexResults =>
    match (if analysis.useRAG then ragBranch env query analysis else .ok []) with
    | .error e => .error e
    | .ok ragResults =>
      .ok ⟨regexResults, ragResults, fuseCombined regexResults ragResults analysis, analysis⟩

/-! ### The context formatter (part_014 lines 337-435) -/

/-- The per-product block of formatContextForLLM.  JS truthiness of the
optional string fields is emptiness here; the two find calls are guarded
by the corresponding some-test, so the JS value "undefined" of a failed
find is unreachable. -/
def formatProductBlock (routerResults : RouterResults) (index : Nat)
    (product : Product) : String :=
  let analysis := routerResults.analysis
  let isExactMatch := (routerResults.regexResults.any fun r => r.id == product.id)
  let matchType := if isExactMatch then "[EXACT MATCH]" else "[SEMANTIC MATCH]"
  let searchedPartNumbers := analysis.partNumbers.map jsToUpper
  let isReplacementMatch :=
    product.replacementParts.any fun rp => searchedPartNumbers.contains (jsToUpper rp)
  let searchedModelNumbers := analysis.modelNumbers.map jsToUpper
  let isModelMatch :=
    product.compatibleModels.any fun cm => searchedModelNumbers.contains (jsToUpper cm)
  let block := "--- " ++ matchType ++ " Product " ++ toString (index + 1) ++ " ---\n"
  let block :=
    if isReplacementMatch && isExactMatch then
      let matchingReplacement :=
        (product.replacementParts.find? fun rp =>
          searchedPartNumbers.contains (jsToUpper rp)).getD "undefined"
      block ++ "[REPLACEMENT PART MATCH] This product replaces part number " ++
        matchingReplacement ++ ". " ++
        "If the user mentioned \"" ++ matchingReplacement ++
        "\", this is the actual product they need.\n"
    else block
  let block :=
    if isModelMatch then
      let matchingModel :=
        (product.compatibleModels.find? fun cm =>
          searchedModelNumbers.contains (jsToUpper cm)).getD "undefined"
      block ++ "[MODEL COMPATIBILITY MATCH] This product is compatible with model number " ++
        matchingModel ++ ". " ++
        "If the user mentioned model \"" ++ matchingModel ++
        "\", this product will work with their appliance.\n"
    else block
  let block := block ++ "Part Number: " ++ product.partNumber ++ "\n"
  let block := block ++ "Name: " ++ product.name ++ "\n"
  let block :=
    if product.description == "" then block
    else block ++ "Description: " ++ product.description ++ "\n"
  let block := block ++ "Category: " ++ product.category ++ "\n"
  let block := block ++ "Brand: " ++ product.brand ++ "\n"
  let block :=
    if product.replacementParts.length > 0 then
      block ++ "Replaces Part Numbers: " ++
        String.intercalate ", " product.replacementParts ++ "\n"
    else block
  let block :=
    if product.compatibleModels.length > 0 then
      block ++ "Compatible Models: " ++
        String.intercalate ", " product.compatibleModels ++ "\n"
    else block
  let block := block ++ "Price: " ++ product.price ++ "\n"
  let block := block ++ "In Stock: " ++ (if product.inStock then "Yes" else "No") ++ "\n"
  let block := block ++ "Product URL: " ++ product.url ++ "\n"
  let block :=
    if analysis.queryType == "installation" && !(product.installation == "") then
      block ++ "\nInstallation Instructions:\n" ++ product.installation ++ "\n"
    else block
  let block :=
    if analysis.queryType == "troubleshooting" && !(product.troubleshooting == "") then
      block ++ "\nTroubleshooting:\n" ++ product.troubleshooting ++ "\n"
    else block
  block ++ "\n"

/-- formatContextForLLM: null exactly when the combined list is empty;
otherwise the routing-metadata header, the per-product blocks in fused
order, and the trailer. -/
def formatContextForLLM (routerResults : RouterResults) (userQuery : String) :
    Option String :=
  let combinedResults := routerResults.combinedResults
  let analysis := routerResults.analysis
  if combinedResults.length == 0 then none
  else
    let context := "\n\nRELEVANT PRODUCT INFORMATION FROM PARTSELECT DATABASE:\n"
    let context :=
      if analysis.useRegex && routerResults.regexResults.length > 0 then
        let context :=
          if analysis.hasPartNumber then
            context ++ "[PART NUMBER SEARCH] The user searched for part number(s): " ++
              String.intercalate ", " analysis.partNumbers ++ ". " ++
              "These are PART NUMBERS (not model numbers). If a product is listed as \"Replaces Part Numbers: " ++
              String.intercalate ", " analysis.partNumbers ++ "\", " ++
              "that means this product is the actual replacement for that part number.\n\n"
          else context
        let context :=
          if analysis.hasModelNumber then
            context ++ "[MODEL NUMBER SEARCH] The user searched for model number(s): " ++
              String.intercalate ", " analysis.modelNumbers ++ ". " ++
              "The following products are compatible with this model number.\n\n"
          else context
        context ++ "[EXACT MATCH FOUND] The following products match your query exactly:\n\n"
      else if analysis.useRAG && routerResults.ragResults.length > 0 then
        if analysis.hasModelNumber then
          context ++ "[MODEL COMPATIBILITY SEARCH] The user mentioned model number(s): " ++
            String.intercalate ", " analysis.modelNumbers ++ ". " ++
            "The following products are compatible with this model number:\n\n"
        else
          context ++ "[SEMANTIC MATCH] The following products are relevant to your query:\n\n"
      else context
    let context := context ++
      "Use this information to provide accurate, specific answers. Prioritize exact matches over semantic matches.\n" ++
      "IMPORTANT: If the user mentions a part number (like AP6006058), and a product is found that lists it in 'Replaces Part Numbers', " ++
      "that product IS the replacement for that part number. The part number itself is not a model number - it's a replacement part identifier.\n\n"
    let context :=
      combinedResults.enum.foldl
        (fun acc iv => acc ++ formatProductBlock routerResults iv.1 iv.2) context
    some (context ++
      "\nIMPORTANT: When answering, prioritize the specific information above over general knowledge. " ++
      "If exact matches are found, use those. Otherwise, use semantic matches. " ++
      "Always cite part numbers and details from the provided context when available.\n")

/-! ### Catalog collaborators (src/unnamed/part_011)

The Chroma collection is modelled as the list of product records it
stores; col.get with a large limit returns them all, and the metadata
massaging of the source round-trips a stored record to itself here. -/

/-- The record id derived from a part number in getProductByPartNumber:
lower-case, every character outside [a-z0-9] replaced by an underscore. -/
def normalizeId (partNumber : String) : String :=
  String.mk ((jsToLower partNumber).data.map fun c =>
    if c.isLower || c.isDigit then c else '_')

/-- getProductByPartNumber (part_011 lines 447-491): direct fetch by the
derived id. -/
def catGetProductByPartNumber (catalog : List Product) (partNumber : String) :
    Option Product :=
  let partLower := normalizeId partNumber
  catalog.find? fun m => m.id == partLower

/-- searchByReplacementPart (part_011 lines 313-372): records whose
replacement list contains the part number (case-insensitively), dropped
when a brand filter is given, the record has a brand, and the brand does
not contain the filter; records without partNumber or name are dropped. -/
def catSearchByReplacementPart (catalog : List Product)
    (replacementPartNumber : String) (brandFilter : Option String) : List Product :=
  let partLower := jsToLower replacementPartNumber
  (catalog.filterMap fun m =>
    let matchesReplacement := m.replacementParts.any fun rp => jsToLower rp == partLower
    if !matchesReplacement then none
    else
      match brandFilter with
      | some bf =>
        if m.brand == "" then some m
        else if strIncludes (jsToLower m.brand) (jsToLower bf) then some m
        else none
      | none => some m).filter fun p => !(p.partNumber == "") && !(p.name == "")

/-- searchByCompatibleModel (part_011 lines 378-431): records whose
compatible-model list contains the model number (upper-cased comparison),
with the same brand filter and final field check. -/
def catSearchByCompatibleModel (catalog : List Product) (modelNumber : String)
    (brandFilter : Option String) : List Product :=
  let modelUpper := jsToUpper modelNumber
  (catalog.filterMap fun m =>
    let matchesModel := m.compatibleModels.any fun cm => jsToUpper cm == modelUpper
    if !matchesModel then none
    else
      match brandFilter with
      | some bf =>
        if m.brand == "" then some m
        else if strIncludes (jsToLower m.brand) (jsToLower bf) then some m
        else none
      | none => some m).filter fun p => !(p.partNumber == "") && !(p.name == "")

/-- An environment backed by a concrete catalog, with a semantic search
that finds nothing (the vector store is a black box; theorems that need
semantic results quantify over the environment instead). -/
def catalogEnv (catalog : List Product) : RouterEnv Unit :=
  ⟨fun pn => .ok (catGetProductByPartNumber catalog pn),
   fun pn bf => .ok (catSearchByReplacementPart catalog pn bf),
   fun mn bf => .ok (catSearchByCompatibleModel catalog mn bf),
   vsSearchProducts fun _ _ => .ok []⟩

/-- An environment in which every collaborator call fails (the wired
searchProducts is the catching wrapper of vectorStore.js, as imported by
the router). -/
def failEnv : RouterEnv Unit :=
  ⟨fun _ => .error (), fun _ _ => .error (), fun _ _ => .error (),
   vsSearchProducts fun _ _ => .error ()⟩

/-- An environment over an empty, healthy catalog: every lookup succeeds
with no candidates. -/
def emptyCatalogEnv : RouterEnv Unit :=
  ⟨fun _ => .ok none, fun _ _ => .ok [], fun _ _ => .ok [],
   vsSearchProducts fun _ _ => .ok []⟩

/-! ### Statement-side definitions for the claims -/

/-- The query contains a token matching the part-number patterns: one of
the two part-number regexes has a match. -/
def hasPartNumberToken (query : String) : Bool :=
  !(scanAll (re1MatchAt query.data) query.data.length).isEmpty ||
  !(scanAll (re2MatchAt query.data) query.data.length).isEmpty

/-- The acceptance test as the intent claim words it: a pattern requiring
partNumber (resp. modelNumber) is rejected when none were extracted, and
the keyword test passes when some keyword of the pattern is a substring of
the lower-cased query or the pattern's keyword set is empty. -/
def specAccepts (query : String) (p : QueryPattern) : Bool :=
  (!(p.requires.contains "partNumber") || !(extractPartNumbers query).isEmpty) &&
  (!(p.requires.contains "modelNumber") || !(extractModelNumbers query).isEmpty) &&
  (p.keywords.isEmpty || p.keywords.any fun k => strIncludes (jsToLower query) k)

/-- The specificity rank the table-order claim asserts: identifier-requiring
patterns before keyword-only patterns before the catch-all fallback. -/
def patternRank (p : QueryPattern) : Nat :=
  if !p.requires.isEmpty then 0 else if !p.keywords.isEmpty then 1 else 2

/-- A keyword-only pattern: no entity requirement, non-empty keywords. -/
def keywordOnly (p : QueryPattern) : Bool :=
  p.requires.isEmpty && !p.keywords.isEmpty

/-- The catch-all fallback shape: no requirement, no keywords. -/
def isFallback (p : QueryPattern) : Bool :=
  p.requires.isEmpty && p.keywords.isEmpty

/-- The pattern at row i of the table. -/
def patternAt (i : Nat) : QueryPattern := QUERY_PATTERNS.getD i fallbackPattern

/-- What the fusion claim asserts of an earlier element a and a later
element b of the combined list: (a) a structured b forces a structured a;
(b) among two semantic-only results under an extracted model number, a
model-compatible b forces a model-compatible a; (c) on ties of those
criteria, relevance (absent read as 0) is non-increasing. -/
def fusedBefore (regexResults : List Product) (analysis : QueryAnalysis)
    (a b : Product) : Prop :=
  (isExactIn regexResults b = true → isExactIn regexResults a = true) ∧
  (isExactIn regexResults a = false → isExactIn regexResults b = false →
    analysis.hasModelNumber = true →
    productMatchesModel analysis.modelNumbers b = true →
    productMatchesModel analysis.modelNumbers a = true) ∧
  (isExactIn regexResults a = isExactIn regexResults b →
    (analysis.hasModelNumber = true → isExactIn regexResults a = false →
      productMatchesModel analysis.modelNumbers a = productMatchesModel analysis.modelNumbers b) →
    relOrZero b ≤ relOrZero a)

/-- Scenario B's query. -/
def scenarioBQuery : String := "ice maker not working on my Whirlpool fridge"

/-- A semantic result carrying a negative relevance score (cosine
similarity is valued in [-1, 1]). -/
def pSemNeg : Product :=
  ⟨"sem_neg", "A100", "Gasket", "", "", "", [], [], "", true, "", "", "", some (-1)⟩

/-- A semantic result carrying no relevance score (the model-compatibility
fetches merged into the RAG set carry none). -/
def pSemNone : Product :=
  ⟨"sem_none", "B100", "Hose", "", "", "", [], [], "", true, "", "", "", none⟩

/-- An analysis with no extracted entities (the general intent). -/
def generalAnalysis : QueryAnalysis :=
  ⟨false, false, false, [], [], [], "general", false, false, "low"⟩

/-- A catalog record branded GE whose replacement list carries WP123456. -/
def rGE : Product :=
  ⟨"ge_rec", "W10295370", "Water Filter", "", "Refrigerator", "GE", [],
   ["WP123456"], "", true, "", "", "", none⟩

/-- A Whirlpool-branded product for the witness environments. -/
def pWhirl : Product :=
  ⟨"w1", "PS11752778", "Ice Maker Assembly", "", "Refrigerator", "Whirlpool",
   [], [], "", true, "", "", "", some 1⟩

/-- An environment whose semantic search always returns the Whirlpool
product and whose catalog lookups find nothing. -/
def envWhirl : RouterEnv Unit :=
  ⟨fun _ => .ok none, fun _ _ => .ok [], fun _ _ => .ok [],
   vsSearchProducts fun _ _ => .ok [pWhirl]⟩

/-! ## Lemmas about the matcher combinators -/

theorem firstSome_eq_some {α β : Type} {l : List α} {f : α → Option β} {b : β}
    (h : firstSome l f = some b) : ∃ a, a ∈ l ∧ f a = some b := by
  induction l with
  | nil => simp [firstSome] at h
  | cons x xs ih =>
    rw [firstSome] at h
    cases hx : f x with
    | some v =>
      rw [hx] at h
      exact ⟨x, List.mem_cons_self x xs, by rw [hx]; exact h⟩
    | none =>
      rw [hx] at h
      obtain ⟨a, ha, hfa⟩ := ih h
      exact ⟨a, List.mem_cons_of_mem x ha, hfa⟩

theorem mem_descCounts {hi lo x : Nat} (h : x ∈ descCounts hi lo) :
    lo ≤ x ∧ x ≤ hi := by
  simp only [descCounts, List.mem_map, List.mem_range] at h
  obtain ⟨k, hk, rfl⟩ := h
  omega

theorem of_mem_scanAllAux {β : Type} {f : Nat → Option (β × Nat)} {len : Nat} :
    ∀ {fuel i : Nat} {b : β}, b ∈ scanAllAux f len i fuel →
      ∃ j e, f j = some (b, e) := by
  intro fuel
  induction fuel with
  | zero => intro i b h; simp [scanAllAux] at h
  | succ n ih =>
    intro i b h
    rw [scanAllAux] at h
    split at h
    · simp at h
    · cases hf : f i with
      | some pe =>
        rw [hf] at h
        rcases List.mem_cons.mp h with rfl | h2
        · exact ⟨i, pe.2, by rw [hf]⟩
        · exact ih h2
      | none =>
        rw [hf] at h
        exact ih h

theorem of_mem_scanAll {β : Type} {f : Nat → Option (β × Nat)} {len : Nat}
    {b : β} (h : b ∈ scanAll f len) : ∃ j e, f j = some (b, e) :=
  of_mem_scanAllAux h

theorem slice_length {cs : List Char} {i n : Nat} :
    (slice cs i n).length = min n (cs.length - i) := by
  simp [slice]

theorem runLen_le {p : Char → Bool} {cs : List Char} {i : Nat} :
    runLen p cs i ≤ cs.length - i := by
  have h := (@List.takeWhile_sublist _ (cs.drop i) p).length_le
  simpa [runLen] using h

/-! ## Length invariants of the part-number matchers -/

theorem re1MatchAt_digits {cs : List Char} {i : Nat}
    {pd : List Char × List Char} {e : Nat}
    (h : re1MatchAt cs i = some (pd, e)) : 5 ≤ pd.2.length ∧ pd.2.length ≤ 10 := by
  unfold re1MatchAt at h
  split at h
  · obtain ⟨nL, hnL, h1⟩ := firstSome_eq_some h
    try dsimp only at h1
    split at h1
    · obtain ⟨nD, hnD, h2⟩ := firstSome_eq_some h1
      try dsimp only at h2
      split at h2
      · rename_i hguard
        have hb1 := (Bool.and_eq_true_iff.mp (Bool.and_eq_true_iff.mp hguard).1).1
        simp only [Option.some.injEq, Prod.mk.injEq] at h2
        obtain ⟨hpd, he⟩ := h2
        have hdg : pd.2 = slice cs (i + nL) nD := by rw [← hpd]
        have hlen : pd.2.length = nD := by
          rw [hdg]; simpa using hb1
        obtain ⟨hlo, hhi⟩ := mem_descCounts hnD
        omega
      · exact absurd h2 (by simp)
    · exact absurd h1 (by simp)
  · exact absurd h (by simp)

theorem re2DigitsAt_digits {cs : List Char} {j : Nat} {dg : List Char} {e : Nat}
    (h : re2DigitsAt cs j = some (dg, e)) : 5 ≤ dg.length ∧ dg.length ≤ 10 := by
  unfold re2DigitsAt at h
  try dsimp only at h
  split at h
  · rename_i hrun
    simp only [Option.some.injEq, Prod.mk.injEq] at h
    obtain ⟨h1, h2⟩ := h
    have hle : runLen isDigitClass cs j ≤ cs.length - j := runLen_le
    have : dg.length = min (min (runLen isDigitClass cs j) 10) (cs.length - j) := by
      rw [← h1, slice_length]
    omega
  · exact absurd h (by simp)

theorem re2MatchAt_digits {cs : List Char} {i : Nat} {dg : List Char} {e : Nat}
    (h : re2MatchAt cs i = some (dg, e)) : 5 ≤ dg.length ∧ dg.length ≤ 10 := by
  unfold re2MatchAt at h
  obtain ⟨jOpt, _, hj⟩ := firstSome_eq_some h
  cases jOpt with
  | some j => exact re2DigitsAt_digits hj
  | none => exact absurd hj (by simp)

/-! ## Lemmas about accumulation and deduplication -/

theorem foldl_pushes_ne_nil {α : Type} (g : List String → α → List String)
    (hg : ∀ acc x, g acc x = acc ∨ ∃ y, g acc x = acc ++ [y]) :
    ∀ (l : List α) (acc : List String), acc ≠ [] → l.foldl g acc ≠ [] := by
  intro l
  induction l with
  | nil => intro acc h; simpa using h
  | cons x xs ih =>
    intro acc h
    rw [List.foldl_cons]
    apply ih
    rcases hg acc x with heq | ⟨y, heq⟩
    · rw [heq]; exact h
    · rw [heq]; simp

theorem dedupFirstStr_ne_nil {l : List String} (h : l ≠ []) :
    dedupFirstStr l ≠ [] := by
  cases l with
  | nil => exact absurd rfl h
  | cons x xs => simp [dedupFirstStr, dedupFirstAux]

theorem mem_dedupFirstAux {x : String} :
    ∀ {seen l : List String}, x ∈ dedupFirstAux seen l → x ∈ l := by
  intro seen l
  induction l generalizing seen with
  | nil => intro h; simpa [dedupFirstAux] using h
  | cons y ys ih =>
    intro h
    rw [dedupFirstAux] at h
    split at h
    · exact List.mem_cons_of_mem y (ih h)
    · rcases List.mem_cons.mp h with rfl | h2
      · exact List.mem_cons_self x ys
      · exact List.mem_cons_of_mem y (ih h2)

/-! ## C3: extracted part numbers are non-empty on a token match and
disjoint from the extracted model numbers -/

theorem pushPrefixedMatch_grows (acc : List String) (pd : List Char × List Char) :
    pushPrefixedMatch acc pd = acc ∨ ∃ y, pushPrefixedMatch acc pd = acc ++ [y] := by
  unfold pushPrefixedMatch
  dsimp only
  split
  · right; exact ⟨_, rfl⟩
  · left; rfl

theorem pushSpacedMatch_grows (acc : List String) (dg : List Char) :
    pushSpacedMatch acc dg = acc ∨ ∃ y, pushSpacedMatch acc dg = acc ++ [y] := by
  unfold pushSpacedMatch
  dsimp only
  split
  · right; exact ⟨_, rfl⟩
  · left; rfl

theorem pushPrefixedMatch_pushes {pd : List Char × List Char} (acc : List String)
    (h : 5 ≤ pd.2.length) : pushPrefixedMatch acc pd ≠ [] := by
  unfold pushPrefixedMatch
  dsimp only
  have hcond : (VALID_PREFIXES.contains (String.mk (pd.1.map Char.toUpper)) ||
      decide ((String.mk pd.2).length ≥ 5)) = true := by
    apply Bool.or_eq_true_iff.mpr
    right
    simpa [String.length] using h
  rw [if_pos hcond]
  simp

theorem pushSpacedMatch_pushes_nil {dg : List Char}
    (h5 : 5 ≤ dg.length) (h10 : dg.length ≤ 10) : pushSpacedMatch [] dg ≠ [] := by
  unfold pushSpacedMatch
  dsimp only
  have hcond : (!(List.contains [] ("PS" ++ String.mk dg)) &&
      decide ((String.mk dg).length ≥ 5) && decide ((String.mk dg).length ≤ 10)) = true := by
    simp [String.length, h5, h10, List.contains]
  rw [if_pos hcond]
  simp

theorem extractPartNumbers_ne_nil_of_token {q : String}
    (h : hasPartNumberToken q = true) : extractPartNumbers q ≠ [] := by
  unfold hasPartNumberToken at h
  unfold extractPartNumbers
  apply dedupFirstStr_ne_nil
  by_cases hfirst :
      (scanAll (re1MatchAt q.data) q.data.length).foldl pushPrefixedMatch [] = []
  · -- the first fold produced nothing, so the prefixed pattern had no match
    -- that pushed; the spaced pattern must have a match, and it pushes
    have hm1nil : scanAll (re1MatchAt q.data) q.data.length = [] := by
      cases hm : scanAll (re1MatchAt q.data) q.data.length with
      | nil => rfl
      | cons pd rest =>
        exfalso
        apply foldl_pushes_ne_nil pushPrefixedMatch pushPrefixedMatch_grows rest
          (pushPrefixedMatch [] pd)
        · apply pushPrefixedMatch_pushes
          obtain ⟨j, e, hje⟩ := of_mem_scanAll (hm ▸ List.mem_cons_self pd rest)
          exact (re1MatchAt_digits hje).1
        · rw [hm] at hfirst
          simpa using hfirst
    have h2 : scanAll (re2MatchAt q.data) q.data.length ≠ [] := by
      rcases Bool.or_eq_true_iff.mp h with h1 | h1
      · rw [hm1nil] at h1; simp at h1
      · intro hnil; rw [hnil] at h1; simp at h1
    rw [hfirst]
    cases hm : scanAll (re2MatchAt q.data) q.data.length with
    | nil => exact absurd hm h2
    | cons dg rest =>
      rw [List.foldl_cons]
      apply foldl_pushes_ne_nil pushSpacedMatch pushSpacedMatch_grows
      obtain ⟨j, e, hje⟩ := of_mem_scanAll (hm ▸ List.mem_cons_self dg rest)
      obtain ⟨h5, h10⟩ := re2MatchAt_digits hje
      exact pushSpacedMatch_pushes_nil h5 h10
  · exact foldl_pushes_ne_nil pushSpacedMatch pushSpacedMatch_grows _ _ hfirst

/-- C3: for every query, no string returned as a part number appears in
the model-number list; every returned model number survives the
exclusion filter (not a recognized part number after upper-casing, not
PS-prefixed, in no substring relation with a recognized part number); and
a query with a part-number-pattern token yields a non-empty partNumbers
list. -/
theorem extractor_mutual_exclusion (q : String) :
    (∀ m ∈ extractModelNumbers q,
      m ∉ extractPartNumbers q ∧
      ((extractPartNumbers q).map jsToUpper).contains (jsToUpper m) = false ∧
      strStartsWith (jsToUpper m) "PS" = false ∧
      ∀ pn ∈ extractPartNumbers q,
        strIncludes (jsToUpper m) (jsToUpper pn) = false ∧
        strIncludes (jsToUpper pn) (jsToUpper m) = false) ∧
    (hasPartNumberToken q = true → extractPartNumbers q ≠ []) := by
  constructor
  · intro m hm
    rw [extractModelNumbers] at hm
    have hp := (List.mem_filter.mp hm).2
    dsimp only at hp
    have h1 : ((extractPartNumbers q).map jsToUpper).contains (jsToUpper m) = false := by
      rcases hc : ((extractPartNumbers q).map jsToUpper).contains (jsToUpper m) with _ | _
      · rfl
      · rw [hc] at hp; simp at hp
    have h2 : strStartsWith (jsToUpper m) "PS" = false := by
      rcases hc : strStartsWith (jsToUpper m) "PS" with _ | _
      · rfl
      · rw [hc] at hp; simp [h1] at hp
    have h3 : (extractPartNumbers q).any
        (fun pn => strIncludes (jsToUpper m) (jsToUpper pn) ||
                   strIncludes (jsToUpper pn) (jsToUpper m)) = false := by
      rcases hc : (extractPartNumbers q).any
          (fun pn => strIncludes (jsToUpper m) (jsToUpper pn) ||
                     strIncludes (jsToUpper pn) (jsToUpper m)) with _ | _
      · rfl
      · rw [hc] at hp; simp [h1, h2] at hp
    refine ⟨?_, h1, h2, ?_⟩
    · intro hmem
      have : jsToUpper m ∈ (extractPartNumbers q).map jsToUpper :=
        List.mem_map.mpr ⟨m, hmem, rfl⟩
      have hc2 : ((extractPartNumbers q).map jsToUpper).contains (jsToUpper m) = true :=
        List.contains_iff_exists_mem_beq.mpr ⟨jsToUpper m, this, by simp⟩
      rw [hc2] at h1
      exact absurd h1 (by simp)
    · intro pn hpn
      have := List.any_eq_false.mp h3 pn hpn
      constructor
      · rcases hc : strIncludes (jsToUpper m) (jsToUpper pn) with _ | _
        · rfl
        · rw [hc] at this; simp at this
      · rcases hc : strIncludes (jsToUpper pn) (jsToUpper m) with _ | _
        · rfl
        · rw [hc] at this; simp at this
  · exact extractPartNumbers_ne_nil_of_token

/-- C4 (code bug): on the query "AP6006058" the extractor returns both the
prefixed identifier AP6006058 and the synthesized PS6006058 built from the
same digit run, because the spaced-pattern loop only deduplicates against
the exact string "PS" + digits. -/
theorem extractPartNumbers_duplicates_digit_run :
    extractPartNumbers "AP6006058" = ["AP6006058", "PS6006058"] ∧
    extractBrands "AP6006058" = [] ∧ extractModelNumbers "AP6006058" = [] := by
  refine ⟨by decide, by decide, by decide⟩


/-! ## C5: the order of the pattern table -/

/-- C5 counterexample: the table is not ordered
identifier-requiring < keyword-only < fallback; the modelNumber-requiring
model_query row (rank 0) sits at index 7, after keyword-only rows (rank 1)
such as brand_query at index 4. -/
theorem patterns_not_rank_ordered :
    ¬ ((QUERY_PATTERNS.map patternRank).Pairwise (· ≤ ·)) ∧
    (patternAt 7).requires = ["modelNumber"] ∧ (patternAt 7).type = "model_query" ∧
    keywordOnly (patternAt 4) = true ∧ (patternAt 4).type = "brand_query" := by
  refine ⟨?_, by decide, by decide, by decide, by decide⟩
  decide

/-- C5 (amended): every partNumber-requiring pattern precedes every
keyword-only pattern; the single modelNumber-requiring pattern sits at
index 7, after four keyword-only rows and before the keyword-only help
row; every keyword-only pattern precedes the catch-all fallback, which is
the last row and has no requirements and no keywords. -/
theorem patterns_order_amended :
    (∀ i j : Fin 10, (patternAt i).requires.contains "partNumber" = true →
      keywordOnly (patternAt j) = true → (i : Nat) < j) ∧
    (patternAt 7).requires = ["modelNumber"] ∧
    keywordOnly (patternAt 4) = true ∧ keywordOnly (patternAt 8) = true ∧
    (∀ i : Fin 10, keywordOnly (patternAt i) = true → (i : Nat) < 9) ∧
    QUERY_PATTERNS.length = 10 ∧
    isFallback (patternAt 9) = true ∧ (patternAt 9).type = "general" ∧
    patternAt 9 = fallbackPattern := by
  refine ⟨?_, by decide, by decide, by decide, ?_, by decide, by decide, by decide, by decide⟩
  · decide
  · decide

/-- C5 amended witness: the first partNumber-requiring row precedes the
first keyword-only row. -/
theorem patterns_order_amended_witness : (0 : Nat) < 3 :=
  patterns_order_amended.1 ⟨0, by decide⟩ ⟨3, by decide⟩ (by decide) (by decide)

/-! ## C1: the classifier selects the first accepted pattern -/

theorem findIsSome_eq_any {α : Type} (p : α → Bool) (l : List α) :
    (l.find? p).isSome = l.any p := by
  induction l with
  | nil => simp
  | cons x xs ih => cases hx : p x <;> simp [List.find?_cons, hx, ih]

theorem matchesPattern_eq_specAccepts (q : String) (p : QueryPattern) :
    matchesPattern (jsToLower q) p (decide ((extractPartNumbers q).length > 0))
      (decide ((extractModelNumbers q).length > 0)) = specAccepts q p := by
  unfold matchesPattern specAccepts
  cases h1 : p.requires.contains "partNumber" <;>
    cases h2 : p.requires.contains "modelNumber" <;>
      cases h3 : extractPartNumbers q <;>
        cases h4 : extractModelNumbers q <;>
          cases h5 : p.keywords <;>
            simp [findIsSome_eq_any]

theorem findMatchedPattern_eq_find? (lq : String) (hp hm : Bool) (l : List QueryPattern) :
    findMatchedPattern lq hp hm l = l.find? (fun p => matchesPattern lq p hp hm) := by
  induction l with
  | nil => rfl
  | cons x xs ih =>
    rw [findMatchedPattern, List.find?_cons]
    cases matchesPattern lq x hp hm <;> simp [ih]

/-- C1: for every query the classifier produces exactly one intent, the
type of the first pattern of the table accepted by the claim's
requirement/keyword test, the last (general) row standing in when none is
accepted. -/
theorem queryType_is_first_accepted (q : String) :
    (QUERY_PATTERNS.find? (specAccepts q)).isSome = true ∧
    (analyzeQuery q).queryType =
      ((QUERY_PATTERNS.find? (specAccepts q)).getD fallbackPattern).type := by
  constructor
  · apply List.find?_isSome.mpr
    refine ⟨fallbackPattern, by decide, ?_⟩
    have hfb : fallbackPattern = ⟨"general", [], [], false, false, "low"⟩ := rfl
    simp [specAccepts, hfb]
  · unfold analyzeQuery
    dsimp only
    rw [findMatchedPattern_eq_find?]
    rw [show (fun p => matchesPattern (jsToLower q) p
          (decide ((extractPartNumbers q).length > 0))
          (decide ((extractModelNumbers q).length > 0))) = specAccepts q from
        funext (matchesPattern_eq_specAccepts q)]
    cases h : QUERY_PATTERNS.find? (specAccepts q) <;> simp

/-! ## C8: the formatter is null exactly on an empty combined list -/

/-- C8: formatContextForLLM is none exactly when the combined list is
empty; and for the query "hello" no pattern before the general row is
accepted, neither strategy runs, the combined list is empty and the
formatter returns none. -/
theorem format_null_iff_empty :
    (∀ (rr : RouterResults) (uq : String),
      (formatContextForLLM rr uq).isNone = rr.combinedResults.isEmpty) ∧
    (∀ (ε : Type) (env : RouterEnv ε),
      routeQuery env "hello" = .ok ⟨[], [], [], analyzeQuery "hello"⟩) ∧
    (analyzeQuery "hello").queryType = "general" ∧
    (analyzeQuery "hello").useRegex = false ∧
    (analyzeQuery "hello").useRAG = false ∧
    formatContextForLLM ⟨[], [], [], analyzeQuery "hello"⟩ "hello" = none := by
  refine ⟨?_, fun ε env => rfl, by decide, by decide, by decide, by decide⟩
  intro rr uq
  cases h : rr.combinedResults <;> simp [formatContextForLLM, h]

/-! ## C2: fusion order and deduplication -/

theorem mem_sortInsert {le : Product → Product → Bool} {x a : Product} :
    ∀ {l : List Product}, a ∈ sortInsert le x l ↔ a = x ∨ a ∈ l := by
  intro l
  induction l with
  | nil => simp [sortInsert]
  | cons y ys ih =>
    rw [sortInsert]
    split
    · simp
    · simp only [List.mem_cons, ih]
      tauto

theorem sortInsert_perm (le : Product → Product → Bool) (x : Product) :
    ∀ l : List Product, (sortInsert le x l).Perm (x :: l) := by
  intro l
  induction l with
  | nil => exact List.Perm.refl _
  | cons y ys ih =>
    rw [sortInsert]
    split
    · exact List.Perm.refl _
    · exact (ih.cons y).trans (List.Perm.swap x y ys)

theorem stableSort_perm (le : Product → Product → Bool) :
    ∀ l : List Product, (stableSort le l).Perm l := by
  intro l
  induction l with
  | nil => exact List.Perm.refl _
  | cons x xs ih =>
    rw [stableSort]
    exact (sortInsert_perm le x (stableSort le xs)).trans (ih.cons x)

theorem pairwise_sortInsert {le : Product → Product → Bool}
    (total : ∀ a b, le a b = true ∨ le b a = true)
    (trans : ∀ a b c, le a b = true → le b c = true → le a c = true)
    {x : Product} :
    ∀ {l : List Product}, l.Pairwise (fun a b => le a b = true) →
      (sortInsert le x l).Pairwise (fun a b => le a b = true) := by
  intro l
  induction l with
  | nil => intro _; simp [sortInsert]
  | cons y ys ih =>
    intro h
    obtain ⟨hy, hys⟩ := List.pairwise_cons.mp h
    rw [sortInsert]
    split
    · rename_i hxy
      apply List.pairwise_cons.mpr
      refine ⟨?_, h⟩
      intro z hz
      rcases List.mem_cons.mp hz with rfl | hz2
      · exact hxy
      · exact trans x y z hxy (hy z hz2)
    · rename_i hxy
      have hyx : le y x = true := by
        rcases total x y with hx | hx
        · exact absurd hx hxy
        · exact hx
      apply List.pairwise_cons.mpr
      constructor
      · intro z hz
        rcases mem_sortInsert.mp hz with rfl | hz2
        · exact hyx
        · exact hy z hz2
      · exact ih hys

theorem pairwise_stableSort {le : Product → Product → Bool}
    (total : ∀ a b, le a b = true ∨ le b a = true)
    (trans : ∀ a b c, le a b = true → le b c = true → le a c = true) :
    ∀ l : List Product, (stableSort le l).Pairwise (fun a b => le a b = true) := by
  intro l
  induction l with
  | nil => simp [stableSort]
  | cons x xs ih =>
    rw [stableSort]
    exact pairwise_sortInsert total trans ih

theorem productCmp_total (R : List Product) (A : QueryAnalysis) (a b : Product) :
    productCmp R A a b ≤ 0 ∨ productCmp R A b a ≤ 0 := by
  unfold productCmp
  cases haE : isExactIn R a <;> cases hbE : isExactIn R b <;>
    cases hM : A.hasModelNumber <;>
      cases ham : productMatchesModel A.modelNumbers a <;>
        cases hbm : productMatchesModel A.modelNumbers b <;>
          simp_all <;> omega

theorem productCmp_trans (R : List Product) (A : QueryAnalysis) (a b c : Product)
    (h1 : productCmp R A a b ≤ 0) (h2 : productCmp R A b c ≤ 0) :
    productCmp R A a c ≤ 0 := by
  unfold productCmp at h1 h2 ⊢
  cases haE : isExactIn R a <;> cases hbE : isExactIn R b <;>
    cases hcE : isExactIn R c <;> cases hM : A.hasModelNumber <;>
      cases ham : productMatchesModel A.modelNumbers a <;>
        cases hbm : productMatchesModel A.modelNumbers b <;>
          cases hcm : productMatchesModel A.modelNumbers c <;>
            simp_all <;> omega

theorem fusedBefore_of_cmp {R : List Product} {A : QueryAnalysis} {a b : Product}
    (h : productCmp R A a b ≤ 0) : fusedBefore R A a b := by
  unfold productCmp at h
  unfold fusedBefore relOrZero at *
  cases haE : isExactIn R a <;> cases hbE : isExactIn R b <;>
    cases hM : A.hasModelNumber <;>
      cases ham : productMatchesModel A.modelNumbers a <;>
        cases hbm : productMatchesModel A.modelNumbers b <;>
          simp_all <;> omega

theorem mem_dedupByIdAux {p : Product} :
    ∀ {seen : List String} {l : List Product}, p ∈ dedupByIdAux seen l →
      p ∈ l ∧ seen.contains p.id = false := by
  intro seen l
  induction l generalizing seen with
  | nil => intro h; simp [dedupByIdAux] at h
  | cons x xs ih =>
    intro h
    rw [dedupByIdAux] at h
    split at h
    · obtain ⟨hmem, hseen⟩ := ih h
      exact ⟨List.mem_cons_of_mem x hmem, hseen⟩
    · rename_i hx
      rcases List.mem_cons.mp h with rfl | h2
      · exact ⟨List.mem_cons_self p xs, Bool.eq_false_iff.mpr hx⟩
      · obtain ⟨hmem, hseen⟩ := ih h2
        refine ⟨List.mem_cons_of_mem x hmem, ?_⟩
        rw [List.contains_cons] at hseen
        exact (Bool.or_eq_false_iff.mp hseen).2

theorem nodup_dedupByIdAux :
    ∀ {seen : List String} {l : List Product},
      ((dedupByIdAux seen l).map Product.id).Nodup := by
  intro seen l
  induction l generalizing seen with
  | nil => simp [dedupByIdAux]
  | cons x xs ih =>
    rw [dedupByIdAux]
    split
    · exact ih
    · rw [List.map_cons]
      apply List.nodup_cons.mpr
      refine ⟨?_, ih⟩
      intro hmem
      obtain ⟨q, hq, hqid⟩ := List.mem_map.mp hmem
      have := (mem_dedupByIdAux hq).2
      rw [List.contains_cons] at this
      simp [hqid] at this

theorem dedupByIdAux_append_mem {p : Product} :
    ∀ {seen : List String} {xs ys : List Product},
      p ∈ dedupByIdAux seen (xs ++ ys) →
      p ∈ xs ∨ ∃ seen2 : List String,
        (∀ x ∈ xs, seen2.contains x.id = true) ∧
        (∀ s, seen.contains s = true → seen2.contains s = true) ∧
        p ∈ dedupByIdAux seen2 ys := by
  intro seen xs ys
  induction xs generalizing seen with
  | nil =>
    intro h
    exact Or.inr ⟨seen, by simp, fun s hs => hs, h⟩
  | cons x xs ih =>
    intro h
    rw [List.cons_append, dedupByIdAux] at h
    split at h
    · rename_i hx
      rcases ih h with h1 | ⟨seen2, hall, hmono, hp⟩
      · exact Or.inl (List.mem_cons_of_mem x h1)
      · refine Or.inr ⟨seen2, ?_, hmono, hp⟩
        intro z hz
        rcases List.mem_cons.mp hz with rfl | hz2
        · exact hmono _ hx
        · exact hall z hz2
    · rename_i hx
      rcases List.mem_cons.mp h with rfl | h2
      · exact Or.inl (List.mem_cons_self p xs)
      · rcases ih h2 with h1 | ⟨seen2, hall, hmono, hp⟩
        · exact Or.inl (List.mem_cons_of_mem x h1)
        · refine Or.inr ⟨seen2, ?_, ?_, hp⟩
          · intro z hz
            rcases List.mem_cons.mp hz with rfl | hz2
            · exact hmono _ (by simp [List.contains_cons])
            · exact hall z hz2
          · intro s hs
            exact hmono s (by simp; exact Or.inr (by simpa using hs))

/-- C2 (amended): the combined list of the fusion step carries no two
entries with the same record id; every entry came from the structured or
the semantic list, and an entry whose id appears among the structured
results is itself the structured entry (structured wins the tie); and
consecutive entries are ordered by the comparator: structured before
semantic-only, model-compatible before non-compatible among semantic
results under an extracted model number, and ties broken by descending
relevance with an absent score read as zero. -/
theorem fusion_spec (regexResults ragResults : List Product) (analysis : QueryAnalysis) :
    ((fuseCombined regexResults ragResults analysis).map Product.id).Nodup ∧
    (∀ p ∈ fuseCombined regexResults ragResults analysis,
      p ∈ regexResults ∨ p ∈ ragResults) ∧
    (∀ p ∈ fuseCombined regexResults ragResults analysis,
      (∃ s ∈ regexResults, s.id = p.id) → p ∈ regexResults) ∧
    (fuseCombined regexResults ragResults analysis).Pairwise
      (fusedBefore regexResults analysis) := by
  have hperm : (fuseCombined regexResults ragResults analysis).Perm
      (dedupById (regexResults ++ ragResults)) :=
    stableSort_perm _ _
  refine ⟨?_, ?_, ?_, ?_⟩
  · have hnodup : ((dedupById (regexResults ++ ragResults)).map Product.id).Nodup :=
      nodup_dedupByIdAux
    exact (hperm.map Product.id).symm.nodup hnodup
  · intro p hp
    have hmem := hperm.subset hp
    rw [dedupById] at hmem
    exact List.mem_append.mp ((mem_dedupByIdAux hmem).1)
  · intro p hp ⟨s, hs, hsid⟩
    have hmem := hperm.subset hp
    rw [dedupById] at hmem
    rcases dedupByIdAux_append_mem hmem with h1 | ⟨seen2, hall, _, hp2⟩
    · exact h1
    · exfalso
      have hfalse := (mem_dedupByIdAux hp2).2
      have htrue := hall s hs
      rw [hsid] at htrue
      rw [htrue] at hfalse
      exact absurd hfalse (by simp)
  · have htotal : ∀ a b : Product,
        (decide (productCmp regexResults analysis a b ≤ 0)) = true ∨
        (decide (productCmp regexResults analysis b a ≤ 0)) = true := by
      intro a b
      rcases productCmp_total regexResults analysis a b with h | h
      · exact Or.inl (by simpa using h)
      · exact Or.inr (by simpa using h)
    have htrans : ∀ a b c : Product,
        (decide (productCmp regexResults analysis a b ≤ 0)) = true →
        (decide (productCmp regexResults analysis b c ≤ 0)) = true →
        (decide (productCmp regexResults analysis a c ≤ 0)) = true := by
      intro a b c h1 h2
      simpa using productCmp_trans regexResults analysis a b c
        (by simpa using h1) (by simpa using h2)
    have := pairwise_stableSort htotal htrans (dedupById (regexResults ++ ragResults))
    exact this.imp fun h => fusedBefore_of_cmp (by simpa using h)

/-- C2 counterexample: a semantic result with relevance -1 and one with an
absent score, both semantic-only and model-neutral; the claim's rule
"absent score treated as the lowest" would place the -1 result first, but
the code reads an absent score as 0 and places the absent-score result
first. -/
theorem fusion_absent_score_counterexample :
    fuseCombined [] [pSemNeg, pSemNone] generalAnalysis = [pSemNone, pSemNeg] ∧
    pSemNeg.relevance = some (-1) ∧ pSemNone.relevance = none ∧
    isExactIn [] pSemNeg = false ∧ isExactIn [] pSemNone = false ∧
    productMatchesModel generalAnalysis.modelNumbers pSemNeg =
      productMatchesModel generalAnalysis.modelNumbers pSemNone ∧
    relOrZero pSemNeg < relOrZero pSemNone := by
  exact ⟨rfl, rfl, rfl, rfl, rfl, rfl, by decide⟩

/-! ## Shared router lemmas for C6, C7, C9 -/

theorem analyzeQuery_modelNumbers (q : String) :
    (analyzeQuery q).modelNumbers = extractModelNumbers q := rfl

theorem analyzeQuery_brands (q : String) :
    (analyzeQuery q).brands = extractBrands q := rfl

theorem analyzeQuery_hasModelNumber (q : String) :
    (analyzeQuery q).hasModelNumber = decide ((extractModelNumbers q).length > 0) := rfl

theorem regexLookup_ok {ε : Type} (env : RouterEnv ε) (a b c : List String) :
    ∃ v, regexLookup env a b c = .ok v := by
  unfold regexLookup
  cases regexLookupBody env a b c <;> exact ⟨_, rfl⟩

theorem brandKeep_brand_ne {brands : List String} {p : Product}
    (h : brandKeep brands p = true) : ¬ p.brand = "" := by
  intro he
  rw [brandKeep, if_pos (by simp [he])] at h
  exact absurd h (by simp)

theorem mem_fuseCombined {R S : List Product} {A : QueryAnalysis} {p : Product}
    (hp : p ∈ fuseCombined R S A) : p ∈ R ∨ p ∈ S := by
  have hmem := (stableSort_perm _ _).subset hp
  rw [dedupById] at hmem
  exact List.mem_append.mp ((mem_dedupByIdAux hmem).1)

theorem mem_dedupById {l : List Product} {p : Product} (hp : p ∈ dedupById l) :
    p ∈ l := by
  rw [dedupById] at hp
  exact (mem_dedupByIdAux hp).1

theorem regexLookupBody_brands {ε : Type} {env : RouterEnv ε}
    {a b brands : List String} {w : List Product} (hbr : brands ≠ [])
    (h : regexLookupBody env a b brands = .ok w) :
    ∀ p ∈ w, brandKeep brands p = true := by
  unfold regexLookupBody at h
  split at h
  · exact absurd h (by simp)
  · split at h
    · exact absurd h (by simp)
    · dsimp only at h
      have hlen : brands.length > 0 := by
        cases brands with
        | nil => exact absurd rfl hbr
        | cons x xs => simp
      rw [if_pos hlen] at h
      injection h with h
      subst h
      intro p hp
      exact (List.mem_filter.mp (mem_dedupById hp)).2

theorem regexLookup_brands {ε : Type} {env : RouterEnv ε}
    {a b brands : List String} {v : List Product} (hbr : brands ≠ [])
    (h : regexLookup env a b brands = .ok v) :
    ∀ p ∈ v, brandKeep brands p = true := by
  unfold regexLookup at h
  split at h
  · injection h with h
    subst h
    intro p hp
    simp at hp
  · rename_i w hbody
    injection h with h
    subst h
    exact regexLookupBody_brands hbr hbody

theorem ragBranch_brands {ε : Type} {env : RouterEnv ε} {q : String}
    {analysis : QueryAnalysis} {w : List Product} (hbr : analysis.brands ≠ [])
    (h : ragBranch env q analysis = .ok w) :
    ∀ p ∈ w, brandKeep analysis.brands p = true := by
  have hlen : analysis.brands.length > 0 := by
    cases hb : analysis.brands with
    | nil => exact absurd hb hbr
    | cons x xs => simp
  unfold ragBranch at h
  dsimp only at h
  split at h
  · exact absurd h (by simp)
  · split at h
    · exact absurd h (by simp)
    · injection h with h
      subst h
      intro p hp
      have hmem := mem_dedupById hp
      split at hmem
      · exact (List.mem_filter.mp hmem).2
      · rename_i hcond
        exfalso
        have h2 := List.length_pos_of_mem hmem
        apply hcond
        simp only [Bool.and_eq_true, decide_eq_true_eq]
        exact ⟨hlen, h2⟩

/-! ## C9: brandless records are excluded when a brand was extracted -/

/-- C9: whenever at least one brand is extracted from the query, a record
whose brand field is empty is excluded from the structured results, the
semantic results and the combined list of routeQuery. -/
theorem brandless_records_excluded (ε : Type) (env : RouterEnv ε) (q : String)
    (res : RouterResults) (hb : extractBrands q ≠ [])
    (hr : routeQuery env q = .ok res) :
    (∀ p ∈ res.regexResults, ¬ p.brand = "") ∧
    (∀ p ∈ res.ragResults, ¬ p.brand = "") ∧
    (∀ p ∈ res.combinedResults, ¬ p.brand = "") := by
  have hbrands : (analyzeQuery q).brands ≠ [] := by
    rw [analyzeQuery_brands]; exact hb
  unfold routeQuery at hr
  dsimp only at hr
  rcases h1 : (if (analyzeQuery q).useRegex &&
        ((analyzeQuery q).hasPartNumber || (analyzeQuery q).hasModelNumber) then
      regexLookup env (analyzeQuery q).partNumbers (analyzeQuery q).modelNumbers
        (analyzeQuery q).brands
    else .ok []) with e | rR
  · rw [h1] at hr; exact absurd hr (by simp)
  · rw [h1] at hr
    rcases h2 : (if (analyzeQuery q).useRAG then ragBranch env q (analyzeQuery q)
        else .ok ([] : List Product)) with e | rG
    · rw [h2] at hr; exact absurd hr (by simp)
    · rw [h2] at hr
      dsimp only at hr
      injection hr with hr
      subst hr
      have hregex : ∀ p ∈ rR, brandKeep (analyzeQuery q).brands p = true := by
        rcases hc : ((analyzeQuery q).useRegex &&
            ((analyzeQuery q).hasPartNumber || (analyzeQuery q).hasModelNumber)) with _ | _
        · rw [hc, if_neg (by simp)] at h1
          injection h1 with h1
          subst h1
          intro p hp
          simp at hp
        · rw [hc, if_pos rfl] at h1
          exact regexLookup_brands hbrands h1
      have hrag : ∀ p ∈ rG, brandKeep (analyzeQuery q).brands p = true := by
        rcases hc : (analyzeQuery q).useRAG with _ | _
        · rw [hc, if_neg (by simp)] at h2
          injection h2 with h2
          subst h2
          intro p hp
          simp at hp
        · rw [hc, if_pos rfl] at h2
          exact ragBranch_brands hbrands h2
      refine ⟨fun p hp => brandKeep_brand_ne (hregex p hp),
              fun p hp => brandKeep_brand_ne (hrag p hp), fun p hp => ?_⟩
      rcases mem_fuseCombined hp with hmem | hmem
      · exact brandKeep_brand_ne (hregex p hmem)
      · exact brandKeep_brand_ne (hrag p hmem)

/-- C9 witness: for the query "whirlpool filter" with a semantic
collaborator returning one Whirlpool-branded record, the record that
reaches the semantic results has a non-empty brand. -/
theorem brandless_records_excluded_witness : pWhirl.brand = "Whirlpool" := by
  have h := (brandless_records_excluded Unit envWhirl "whirlpool filter"
    ⟨[], [pWhirl], [pWhirl], analyzeQuery "whirlpool filter"⟩
    (by decide) (by rfl)).2.1 pWhirl (by simp)
  rfl

/-! ## C7: collaborator failures are swallowed, not propagated -/

/-- C7 counterexample: with every collaborator failing, routeQuery on
"PS11752778" still succeeds with empty result lists, identical to the
result over an empty, healthy catalog, although the structured strategy
was invoked (useRegex with an extracted part number) and the semantic
strategy ran; the outage is not surfaced as a routing-level failure. -/
theorem collaborator_failure_indistinguishable :
    routeQuery failEnv "PS11752778" = .ok ⟨[], [], [], analyzeQuery "PS11752778"⟩ ∧
    routeQuery emptyCatalogEnv "PS11752778" = routeQuery failEnv "PS11752778" ∧
    (analyzeQuery "PS11752778").useRegex = true ∧
    (analyzeQuery "PS11752778").hasPartNumber = true ∧
    (analyzeQuery "PS11752778").useRAG = true := by
  exact ⟨rfl, rfl, by decide, by decide, by decide⟩

/-- C7 (amended): regexLookup's catch converts any collaborator rejection
into an empty list, and the wrapped searchProducts converts any vector-
search rejection into an empty list, so for every query without extracted
model numbers routeQuery returns ok for every collaborator behavior; no
distinct routing-level retrieval failure is produced. -/
theorem collaborator_errors_swallowed (ε : Type)
    (gp : String → Except ε (Option Product))
    (sr : String → Option String → Except ε (List Product))
    (sc : String → Option String → Except ε (List Product))
    (raw : String → Nat → Except ε (List Product)) (q : String)
    (hm : extractModelNumbers q = []) :
    ∃ res, routeQuery ⟨gp, sr, sc, vsSearchProducts raw⟩ q = .ok res := by
  have hana : (analyzeQuery q).hasModelNumber = false := by
    rw [analyzeQuery_hasModelNumber, hm]
    rfl
  unfold routeQuery
  dsimp only
  have hreg : ∃ v, (if (analyzeQuery q).useRegex &&
        ((analyzeQuery q).hasPartNumber || (analyzeQuery q).hasModelNumber) then
      regexLookup ⟨gp, sr, sc, vsSearchProducts raw⟩ (analyzeQuery q).partNumbers
        (analyzeQuery q).modelNumbers (analyzeQuery q).brands
    else .ok []) = .ok v := by
    split
    · exact regexLookup_ok _ _ _ _
    · exact ⟨[], rfl⟩
  obtain ⟨v, hv⟩ := hreg
  rw [hv]
  have hrag : ∃ w, (if (analyzeQuery q).useRAG then
      ragBranch ⟨gp, sr, sc, vsSearchProducts raw⟩ q (analyzeQuery q)
    else .ok []) = .ok w := by
    split
    · unfold ragBranch
      dsimp only
      rw [hana]
      rw [if_neg (by simp)]
      dsimp only
      unfold vsSearchProducts
      cases raw (if (analyzeQuery q).brands.length > 0 then
          q ++ " " ++ String.intercalate " " (analyzeQuery q).brands else q) 10 with
      | error e => exact ⟨_, rfl⟩
      | ok l => exact ⟨_, rfl⟩
    · exact ⟨[], rfl⟩
  obtain ⟨w, hw⟩ := hrag
  rw [hw]
  exact ⟨_, rfl⟩

/-- C7 witness: the amended theorem applied to throwing collaborators and
the query "PS11752778". -/
theorem collaborator_errors_swallowed_witness :
    ∃ res, routeQuery ⟨fun _ => .error (), fun _ _ => .error (), fun _ _ => .error (),
      vsSearchProducts fun _ _ => .error ()⟩ "PS11752778" = .ok res :=
  collaborator_errors_swallowed Unit (fun _ => .error ()) (fun _ _ => .error ())
    (fun _ _ => .error ()) (fun _ _ => .error ()) "PS11752778" (by decide)

/-! ## C10: only the first extracted brand reaches the collaborators -/

/-- C10: the structured lookup passes only brands[0] to the
replacement-part and model-compatibility fetches: on the query
"whirlpool ge WP123456" with catalog [rGE], the record rGE replaces
WP123456 and matches the second extracted brand (ge) but not the first
(whirlpool); the fetch filtered by "ge" would return it, the fetch
filtered by brands[0] = "whirlpool" returns nothing, and the structured
results are empty. -/
theorem first_brand_only_collaborator_filter :
    extractBrands "whirlpool ge WP123456" = ["whirlpool", "ge"] ∧
    (extractBrands "whirlpool ge WP123456").head? = some "whirlpool" ∧
    extractPartNumbers "whirlpool ge WP123456" = ["WP123456", "PS123456"] ∧
    extractModelNumbers "whirlpool ge WP123456" = [] ∧
    rGE.replacementParts.contains "WP123456" = true ∧
    brandKeep ["ge"] rGE = true ∧
    brandKeep ["whirlpool"] rGE = false ∧
    catSearchByReplacementPart [rGE] "WP123456" (some "ge") = [rGE] ∧
    catSearchByReplacementPart [rGE] "WP123456" (some "whirlpool") = [] ∧
    regexLookup (catalogEnv [rGE]) (extractPartNumbers "whirlpool ge WP123456")
      (extractModelNumbers "whirlpool ge WP123456")
      (extractBrands "whirlpool ge WP123456") = .ok [] := by
  exact ⟨by decide, by decide, by decide, by decide, by decide, by decide, by decide,
    by rfl, by rfl, by rfl⟩

/-! ## C6: scenario B -/

/-- C6 counterexample: on scenario B's query the extractor also finds the
brand "ge" inside the word "fridge", and the brand_query row (keyword
"whirlpool") precedes the troubleshooting row, so the brands are not
["whirlpool"] and the intent is brand_query, not troubleshooting. -/
theorem scenarioB_counterexample :
    extractBrands scenarioBQuery = ["whirlpool", "ge"] ∧
    (analyzeQuery scenarioBQuery).queryType = "brand_query" ∧
    ¬ extractBrands scenarioBQuery = ["whirlpool"] ∧
    ¬ (analyzeQuery scenarioBQuery).queryType = "troubleshooting" := by
  exact ⟨by decide, by decide, by decide, by decide⟩

/-- C6 (amended): scenario B extracts no part or model numbers and the
brands ["whirlpool", "ge"]; the intent is brand_query, which skips the
structured strategy and runs only the semantic one; the search string is
the raw query augmented with the extracted brands; and the returned
results are those of the collaborator filtered to records whose brand
matches an extracted brand, deduplicated by id. -/
theorem scenarioB_amended (ε : Type) (env : RouterEnv ε) (l : List Product)
    (h : env.searchProducts (scenarioBQuery ++ " " ++
        String.intercalate " " ["whirlpool", "ge"]) 10 = .ok l) :
    extractPartNumbers scenarioBQuery = [] ∧
    extractModelNumbers scenarioBQuery = [] ∧
    extractBrands scenarioBQuery = ["whirlpool", "ge"] ∧
    (analyzeQuery scenarioBQuery).queryType = "brand_query" ∧
    (analyzeQuery scenarioBQuery).useRegex = false ∧
    (analyzeQuery scenarioBQuery).useRAG = true ∧
    routeQuery env scenarioBQuery = .ok
      ⟨[],
       dedupById (if l.length > 0 then l.filter (brandKeep ["whirlpool", "ge"]) else l),
       fuseCombined []
         (dedupById (if l.length > 0 then l.filter (brandKeep ["whirlpool", "ge"]) else l))
         (analyzeQuery scenarioBQuery),
       analyzeQuery scenarioBQuery⟩ := by
  refine ⟨by decide, by decide, by decide, by decide, by decide, by decide, ?_⟩
  unfold routeQuery
  dsimp only
  rw [show ((analyzeQuery scenarioBQuery).useRegex &&
      ((analyzeQuery scenarioBQuery).hasPartNumber ||
        (analyzeQuery scenarioBQuery).hasModelNumber)) = false from by decide]
  rw [if_neg (by simp)]
  rw [show (analyzeQuery scenarioBQuery).useRAG = true from by decide]
  rw [if_pos rfl]
  unfold ragBranch
  dsimp only
  rw [show ((analyzeQuery scenarioBQuery).hasModelNumber &&
      decide ((analyzeQuery scenarioBQuery).modelNumbers.length > 0)) = false from by decide]
  rw [if_neg (by simp)]
  rw [show (if (analyzeQuery scenarioBQuery).brands.length > 0 then
        scenarioBQuery ++ " " ++ String.intercalate " " (analyzeQuery scenarioBQuery).brands
      else scenarioBQuery) =
      scenarioBQuery ++ " " ++ String.intercalate " " ["whirlpool", "ge"] from by decide]
  rw [h]
  dsimp only
  rw [show (analyzeQuery scenarioBQuery).brands = ["whirlpool", "ge"] from by decide]
  simp

/-- C6 witness: the amended theorem applied to the environment whose
semantic search returns the Whirlpool product. -/
theorem scenarioB_amended_witness :
    extractBrands scenarioBQuery = ["whirlpool", "ge"] :=
  (scenarioB_amended Unit envWhirl [pWhirl] rfl).2.2.1

end PartSelect
